import Mathlib

set_option maxHeartbeats 1000000
set_option synthInstance.maxHeartbeats 400000

/-! Verification development for the two-party video-call client.
The media acquirer, negotiation engine, session-controller routing,
release/teardown paths and context hooks are shallowly embedded from
the TypeScript source (RoomPage.tsx, Peer.tsx, Socket.tsx); browser
APIs (navigator.mediaDevices.getUserMedia, RTCPeerConnection) are
modelled as oracles/state records since they are external to the
repository. -/

/-! # Media Acquirer (RoomPage.tsx, getUserMedia lines 19-98) -/

/-- Video constraint record: the ideal values requested by the source
(width 1280, height 720, frameRate 30). -/
structure VideoCfg where
  width : Nat
  height : Nat
  frameRate : Nat
deriving DecidableEq

/-- MediaStreamConstraints: the audio flag plus an optional video
configuration (none means video: false). -/
structure Constraints where
  audio : Bool
  video : Option VideoCfg
deriving DecidableEq

/-- The camera+microphone request built in the source (lines 33-40). -/
def fullConstraints : Constraints := ⟨true, some ⟨1280, 720, 30⟩⟩

/-- The audio-only fallback request (lines 77-80). -/
def audioOnlyConstraints : Constraints := ⟨true, none⟩

/-- Device error kinds distinguished by the catch branches of
getUserMedia (error.name in the source). -/
inductive ErrName
  | notReadable
  | notAllowed
  | notFound
  | otherErr (msg : String)
deriving DecidableEq

/-- Outcome of one hardware request. The browser call
navigator.mediaDevices.getUserMedia is external, so it is modelled as
an oracle outcome: a fresh stream id or an error kind. -/
inductive GumResult
  | ok (streamId : Nat)
  | err (e : ErrName)
deriving DecidableEq

/-- The acquirer's component state: the isGettingMedia flag, the
mediaError message, and a counter of hardware requests issued so far
(the counter indexes the device oracle). -/
structure MState where
  isGettingMedia : Bool
  mediaError : Option String
  reqCount : Nat
deriving DecidableEq

/-- Observable events recorded while getUserMedia runs:
setIsGettingMedia calls, hardware requests, and backoff waits. -/
inductive MEvent
  | setFlag (b : Bool)
  | request (c : Constraints)
  | sleep (ms : Nat)
deriving DecidableEq

/-- Error message set on permission denial (source lines 60-62). -/
def permissionDeniedMsg : String :=
  "Camera/microphone access denied. Please allow permissions and refresh the page."

/-- Error message set when no device is found (source lines 67-69). -/
def noDeviceMsg : String :=
  "No camera or microphone found. Please connect a camera and microphone."

/-- Message set when the audio-only fallback succeeds (lines 81-83). -/
def audioOnlyModeMsg : String :=
  "Camera unavailable (might be in use). Using audio-only mode."

/-- Terminal message set when the audio-only fallback also fails
(source lines 86-88). -/
def cameraInUseMsg : String :=
  "Camera is in use by another application. Please close other applications using the camera."

/-- Generic media error message (source line 93). -/
def mediaErrMsg (m : String) : String := "Media error: " ++ m

/-- Shallow embedding of getUserMedia (RoomPage.tsx lines 19-98).
Returns the acquired stream id (or none), the final acquirer state and
the trace of events, mirroring the source branch for branch: concurrency
guard, flag set, full-constraint request, retry on NotReadableError with
retryCount < 2 after a 1000 ms wait, terminal branches for
NotAllowedError / NotFoundError, the audio-only fallback for a
NotReadableError with retries exhausted, and the generic branch. Note
the flag is cleared (line 51) before the backoff wait (line 55). -/
def getUserMedia (device : Nat → GumResult) (retryCount : Nat) (st : MState) :
    Option Nat × MState × List MEvent :=
  if st.isGettingMedia then
    (none, st, [])
  else
    let st1 : MState := { st with isGettingMedia := true, mediaError := none }
    match device st1.reqCount with
    | .ok s =>
        (some s, { st1 with isGettingMedia := false, reqCount := st1.reqCount + 1 },
          [.setFlag true, .request fullConstraints, .setFlag false])
    | .err e =>
        let st2 : MState := { st1 with isGettingMedia := false, reqCount := st1.reqCount + 1 }
        if h : e = ErrName.notReadable ∧ retryCount < 2 then
          let r := getUserMedia device (retryCount + 1) st2
          (r.1, r.2.1,
            [MEvent.setFlag true, .request fullConstraints, .setFlag false, .sleep 1000] ++ r.2.2)
        else
          match e with
          | .notAllowed =>
              (none, { st2 with mediaError := some permissionDeniedMsg },
                [.setFlag true, .request fullConstraints, .setFlag false])
          | .notFound =>
              (none, { st2 with mediaError := some noDeviceMsg },
                [.setFlag true, .request fullConstraints, .setFlag false])
          | .notReadable =>
              match device st2.reqCount with
              | .ok s2 =>
                  (some s2,
                    { st2 with mediaError := some audioOnlyModeMsg, reqCount := st2.reqCount + 1 },
                    [.setFlag true, .request fullConstraints, .setFlag false,
                      .request audioOnlyConstraints])
              | .err _ =>
                  (none,
                    { st2 with mediaError := some cameraInUseMsg, reqCount := st2.reqCount + 1 },
                    [.setFlag true, .request fullConstraints, .setFlag false,
                      .request audioOnlyConstraints])
          | .otherErr m =>
              (none, { st2 with mediaError := some (mediaErrMsg m) },
                [.setFlag true, .request fullConstraints, .setFlag false])
termination_by 2 - retryCount
decreasing_by omega

/-- Whether a trace event is a camera+microphone hardware request. -/
def isFullReq : MEvent → Bool
  | .request c => c = fullConstraints
  | _ => false

/-- Whether a trace event is an audio-only hardware request. -/
def isAudioReq : MEvent → Bool
  | .request c => c = audioOnlyConstraints
  | _ => false

/-- Number of camera+microphone requests in a trace. -/
def countFull (tr : List MEvent) : Nat := tr.countP isFullReq

/-- Number of audio-only requests in a trace. -/
def countAudio (tr : List MEvent) : Nat := tr.countP isAudioReq

/-- The value of the isGettingMedia flag while the trace event at
index i runs: the last setFlag value among the first i events (false
before any setFlag). -/
def flagAt (tr : List MEvent) (i : Nat) : Bool :=
  (tr.take i).foldl
    (fun acc e => match e with | MEvent.setFlag b => b | _ => acc) false

/-- One full acquisition attempt as it appears in the trace. -/
def busyAttemptTrace : List MEvent :=
  [.setFlag true, .request fullConstraints, .setFlag false]

/-- A device on which every request fails with NotReadableError. -/
def busyDev : Nat → GumResult := fun _ => GumResult.err ErrName.notReadable

/-- A device on which every request fails with NotAllowedError. -/
def deniedDev : Nat → GumResult := fun _ => GumResult.err ErrName.notAllowed

/-- The acquirer state on component mount. -/
def initMState : MState := ⟨false, none, 0⟩

/-- The two request shapes are distinct. -/
theorem full_ne_audio : ¬ (fullConstraints = audioOnlyConstraints) := by decide

/-- For every device behavior, any run of getUserMedia issues at most
2 - retryCount + 1 camera+microphone requests and at most one
audio-only request. -/
theorem gum_counts_le (device : Nat → GumResult) :
    ∀ (n rc : Nat) (st : MState), 2 - rc ≤ n →
      countFull (getUserMedia device rc st).2.2 ≤ n + 1 ∧
      countAudio (getUserMedia device rc st).2.2 ≤ 1 := by
  intro n
  induction n with
  | zero =>
      intro rc st hn
      have hrc : ¬ rc < 2 := by omega
      rw [getUserMedia]
      by_cases hflag : st.isGettingMedia = true
      · simp [hflag, countFull, countAudio]
      · simp only [Bool.not_eq_true] at hflag
        simp only [hflag, Bool.false_eq_true, if_false]
        cases hdev : device st.reqCount with
        | ok s =>
            simp [countFull, countAudio, isFullReq, isAudioReq, full_ne_audio, List.countP_cons]
        | err e =>
            simp only []
            rw [dif_neg (fun hh => hrc hh.2)]
            cases e with
            | notReadable =>
                cases hdev2 : device (st.reqCount + 1) <;>
                  simp [countFull, countAudio, List.countP_cons, isFullReq, isAudioReq,
                    full_ne_audio, fullConstraints, audioOnlyConstraints]
            | notAllowed =>
                simp [countFull, countAudio, List.countP_cons, isFullReq, isAudioReq, full_ne_audio]
            | notFound =>
                simp [countFull, countAudio, List.countP_cons, isFullReq, isAudioReq, full_ne_audio]
            | otherErr m =>
                simp [countFull, countAudio, List.countP_cons, isFullReq, isAudioReq, full_ne_audio]
  | succ n ih =>
      intro rc st hn
      rw [getUserMedia]
      by_cases hflag : st.isGettingMedia = true
      · simp [hflag, countFull, countAudio]
      · simp only [Bool.not_eq_true] at hflag
        simp only [hflag, Bool.false_eq_true, if_false]
        cases hdev : device st.reqCount with
        | ok s =>
            simp [countFull, countAudio, isFullReq, isAudioReq, full_ne_audio, List.countP_cons]
        | err e =>
            simp only []
            by_cases hcond : e = ErrName.notReadable ∧ rc < 2
            · rw [dif_pos hcond]
              have hrec := ih (rc + 1) ⟨false, none, st.reqCount + 1⟩ (by omega)
              simp only [countFull, countAudio, List.countP_append, List.countP_cons] at hrec ⊢
              simp [isFullReq, isAudioReq, full_ne_audio] at hrec ⊢
              omega
            · rw [dif_neg hcond]
              cases e with
              | notReadable =>
                  cases hdev2 : device (st.reqCount + 1) <;>
                    simp [countFull, countAudio, List.countP_cons, isFullReq, isAudioReq,
                      full_ne_audio, fullConstraints, audioOnlyConstraints]
              | notAllowed =>
                  simp [countFull, countAudio, List.countP_cons, isFullReq, isAudioReq, full_ne_audio]
              | notFound =>
                  simp [countFull, countAudio, List.countP_cons, isFullReq, isAudioReq, full_ne_audio]
              | otherErr m =>
                  simp [countFull, countAudio, List.countP_cons, isFullReq, isAudioReq, full_ne_audio]

/-- C1: for a run in which the camera+microphone request keeps failing
with NotReadableError, getUserMedia issues the same full request exactly
3 times (initial plus 2 retries) with a 1000 ms backoff between
attempts, then exactly one audio-only fallback request, and when that
fallback also fails it returns null with the terminal camera-unavailable
message; moreover, for every device behavior, every run issues at most
3 camera+microphone requests and at most one audio-only request, so no
error sequence produces an unbounded retry loop. -/
theorem c1_busy_retry_bounded :
    (∀ (device : Nat → GumResult) (st : MState) (eA : ErrName),
        st.isGettingMedia = false →
        device st.reqCount = .err .notReadable →
        device (st.reqCount + 1) = .err .notReadable →
        device (st.reqCount + 2) = .err .notReadable →
        device (st.reqCount + 3) = .err eA →
        getUserMedia device 0 st =
          (none, ⟨false, some cameraInUseMsg, st.reqCount + 4⟩,
            busyAttemptTrace ++ [MEvent.sleep 1000] ++ busyAttemptTrace ++ [MEvent.sleep 1000] ++
              busyAttemptTrace ++ [MEvent.request audioOnlyConstraints])) ∧
    (∀ (device : Nat → GumResult) (rc : Nat) (st : MState),
        countFull (getUserMedia device rc st).2.2 ≤ 3 ∧
        countAudio (getUserMedia device rc st).2.2 ≤ 1) := by
  constructor
  · intro device st eA hflag h0 h1 h2 h3
    simp [getUserMedia, hflag, h0, h1, h2, h3, busyAttemptTrace]
  · intro device rc st
    exact gum_counts_le device 2 rc st (by omega)

/-- C1 witness: the always-busy device at the initial state. -/
theorem c1_busy_retry_bounded_witness :
    initMState.isGettingMedia = false ∧
    getUserMedia busyDev 0 initMState =
      (none, ⟨false, some cameraInUseMsg, 4⟩,
        busyAttemptTrace ++ [MEvent.sleep 1000] ++ busyAttemptTrace ++ [MEvent.sleep 1000] ++
          busyAttemptTrace ++ [MEvent.request audioOnlyConstraints]) ∧
    countFull (getUserMedia busyDev 0 initMState).2.2 ≤ 3 :=
  ⟨rfl,
    by simpa [initMState] using
      c1_busy_retry_bounded.1 busyDev initMState ErrName.notReadable rfl rfl rfl rfl rfl,
    (c1_busy_retry_bounded.2 busyDev 0 initMState).1⟩

/-- C2 (amended): a call to getUserMedia made while the isGettingMedia
flag is true returns null immediately, leaves the state unchanged and
issues no hardware request (empty trace); the flag is however cleared
before each 1-second backoff wait, so the guard does not cover the
backoff windows between device-busy retries. -/
theorem c2_acquire_guard (device : Nat → GumResult) (rc : Nat) (st : MState)
    (h : st.isGettingMedia = true) :
    getUserMedia device rc st = (none, st, []) := by
  unfold getUserMedia
  simp [h]

/-- C2 witness: the guard at a concrete busy state. -/
theorem c2_acquire_guard_witness :
    (⟨true, none, 0⟩ : MState).isGettingMedia = true ∧
    getUserMedia busyDev 0 ⟨true, none, 0⟩ = (none, ⟨true, none, 0⟩, []) :=
  ⟨rfl, c2_acquire_guard busyDev 0 ⟨true, none, 0⟩ rfl⟩

/-- C2 counterexample: in the busy run the event at index 3 is the
first 1-second backoff wait, and the isGettingMedia flag during that
wait is false (it was cleared before the wait); consequently a
concurrent call arriving during the backoff window (acquirer state
with the flag false after one consumed request) passes the guard and
issues a camera+microphone hardware request, refuting the claim that
the guard covers the backoff windows of an in-flight attempt. -/
theorem c2_backoff_window_unguarded :
    (getUserMedia busyDev 0 initMState).2.2.get? 3 = some (MEvent.sleep 1000) ∧
    flagAt (getUserMedia busyDev 0 initMState).2.2 3 = false ∧
    0 < countFull (getUserMedia busyDev 0 ⟨false, none, 1⟩).2.2 := by
  refine ⟨?_, ?_, ?_⟩ <;>
    simp [getUserMedia, busyDev, initMState, flagAt, countFull, isFullReq, List.countP_cons,
      busyAttemptTrace]

/-- Media error banner (RoomPage.tsx lines 397-407): the banner is
rendered exactly when mediaError is set, and it always contains a
Retry button wired to retryMediaAccess, for every error kind. -/
def bannerRetryOffered (mediaError : Option String) : Bool :=
  mediaError.isSome

/-- C6 (amended): when the first hardware request fails with
NotAllowedError, getUserMedia returns null with the terminal
permission-denied message, after exactly one hardware request, with no
retry, no backoff wait and no audio-only fallback; the UI error
banner however offers a Retry action for every displayed media error,
including the permission-denied one. -/
theorem c6_permission_terminal :
    (∀ (device : Nat → GumResult) (rc : Nat) (st : MState),
        st.isGettingMedia = false →
        device st.reqCount = .err .notAllowed →
        getUserMedia device rc st =
          (none, ⟨false, some permissionDeniedMsg, st.reqCount + 1⟩,
            [MEvent.setFlag true, .request fullConstraints, .setFlag false])) ∧
    (∀ e, bannerRetryOffered (some e) = true) := by
  constructor
  · intro device rc st hflag h0
    rw [getUserMedia]
    simp [hflag, h0]
  · intro e
    rfl

/-- C6 witness: the permission-denying device at the initial state. -/
theorem c6_permission_terminal_witness :
    initMState.isGettingMedia = false ∧
    getUserMedia deniedDev 0 initMState =
      (none, ⟨false, some permissionDeniedMsg, 1⟩,
        [MEvent.setFlag true, .request fullConstraints, .setFlag false]) ∧
    bannerRetryOffered (some permissionDeniedMsg) = true :=
  ⟨rfl,
    by simpa [initMState] using c6_permission_terminal.1 deniedDev 0 initMState rfl rfl,
    c6_permission_terminal.2 permissionDeniedMsg⟩

/-- C6 counterexample: after the permission-denied run the stored
media error is the permission message, and the UI banner for it offers
a Retry action — refuting the claim that no retry action is offered
for the permission-denied error. -/
theorem c6_retry_button_shown_on_denial :
    (getUserMedia deniedDev 0 initMState).2.1.mediaError = some permissionDeniedMsg ∧
    bannerRetryOffered (getUserMedia deniedDev 0 initMState).2.1.mediaError = true := by
  constructor <;> simp [getUserMedia, deniedDev, initMState, bannerRetryOffered]

/-! # Negotiation Engine (Peer.tsx lines 43-67) over a model of the
browser RTCPeerConnection (localDescription, remoteDescription and the
WebRTC signalingState transitions: applying an offer description moves
to have-local-offer / have-remote-offer, applying an answer
description completes the round back to stable). -/

/-- Session description type tag. -/
inductive SdpType
  | offer
  | answer
deriving DecidableEq

/-- A session description: its type plus opaque content produced by
the browser. -/
structure Sdp where
  sdpType : SdpType
  content : Nat
deriving DecidableEq

/-- WebRTC signaling states reachable through the operations the
source uses. -/
inductive SigState
  | stable
  | haveLocalOffer
  | haveRemoteOffer
deriving DecidableEq

/-- The peer connection: presence of local/remote descriptions and the
signaling state. -/
structure Pc where
  localDesc : Option Sdp
  remoteDesc : Option Sdp
  sigState : SigState
deriving DecidableEq

/-- Browser setLocalDescription: stores the description; an offer
moves the signaling state to have-local-offer, an answer completes the
round to stable. -/
def setLocalDescription (pc : Pc) (d : Sdp) : Pc :=
  { pc with
    localDesc := some d,
    sigState := (match d.sdpType with
      | .offer => .haveLocalOffer
      | .answer => .stable) }

/-- Browser setRemoteDescription: stores the description; an offer
moves the signaling state to have-remote-offer, an answer completes
the round to stable. -/
def setRemoteDescription (pc : Pc) (d : Sdp) : Pc :=
  { pc with
    remoteDesc := some d,
    sigState := (match d.sdpType with
      | .offer => .haveRemoteOffer
      | .answer => .stable) }

/-- createOffer (Peer.tsx lines 43-47): asks the browser for an offer
(content is an oracle parameter) and applies it as the local
description, returning it. -/
def createOffer (offerContent : Nat) (pc : Pc) : Sdp × Pc :=
  let offer : Sdp := ⟨.offer, offerContent⟩
  (offer, setLocalDescription pc offer)

/-- acceptOffer (Peer.tsx lines 49-56): applies the remote offer, asks
the browser for an answer (oracle parameter) and applies it as the
local description, returning it. -/
def acceptOffer (answerContent : Nat) (offer : Sdp) (pc : Pc) : Sdp × Pc :=
  let pc1 := setRemoteDescription pc offer
  let answer : Sdp := ⟨.answer, answerContent⟩
  (answer, setLocalDescription pc1 answer)

/-- setFinalAnswer (Peer.tsx lines 65-67): applies the remote answer,
completing the round. -/
def setFinalAnswer (answer : Sdp) (pc : Pc) : Pc :=
  setRemoteDescription pc answer

/-- C3: round-trip law — if engine A runs createOffer, engine B runs
acceptOffer on A's offer, and A runs setFinalAnswer on B's answer,
both engines end in the stable signaling state with matching
descriptions: A's local description equals B's remote description and
B's local description equals A's remote description. -/
theorem c3_round_trip (cA cB : Nat) (pcA pcB : Pc) :
    ((setFinalAnswer (acceptOffer cB (createOffer cA pcA).1 pcB).1
        (createOffer cA pcA).2).sigState = SigState.stable) ∧
    ((acceptOffer cB (createOffer cA pcA).1 pcB).2.sigState = SigState.stable) ∧
    ((setFinalAnswer (acceptOffer cB (createOffer cA pcA).1 pcB).1
        (createOffer cA pcA).2).localDesc =
      (acceptOffer cB (createOffer cA pcA).1 pcB).2.remoteDesc) ∧
    ((acceptOffer cB (createOffer cA pcA).1 pcB).2.localDesc =
      (setFinalAnswer (acceptOffer cB (createOffer cA pcA).1 pcB).1
        (createOffer cA pcA).2).remoteDesc) := by
  refine ⟨?_, ?_, ?_, ?_⟩ <;>
    simp [createOffer, acceptOffer, setFinalAnswer, setLocalDescription, setRemoteDescription]

/-! # Session Controller (RoomPage.tsx lines 130-320) -/

/-- Oracle for the external behaviors a handler can hit: whether the
media acquisition succeeds, which browser negotiation call (if any)
rejects, and the contents the browser produces for offers/answers. -/
structure BrowserOrc where
  gumOk : Bool
  failCreateOffer : Bool
  failSetLocalOffer : Bool
  failSetRemote : Bool
  failCreateAnswer : Bool
  failSetLocalAnswer : Bool
  failSetRemoteAnswer : Bool
  offerContent : Nat
  answerContent : Nat
deriving DecidableEq

/-- createOffer with each awaited browser call able to reject
(Peer.tsx lines 43-47); returns the connection state reached and the
offer or the error. -/
def createOfferE (o : BrowserOrc) (pc : Pc) : Pc × Except String Sdp :=
  if o.failCreateOffer then (pc, .error "createOffer failed")
  else
    let offer : Sdp := ⟨.offer, o.offerContent⟩
    if o.failSetLocalOffer then (pc, .error "setLocalDescription failed")
    else (setLocalDescription pc offer, .ok offer)

/-- acceptOffer with each awaited browser call able to reject
(Peer.tsx lines 49-56); a failure after setRemoteDescription leaves
the remote description applied. -/
def acceptOfferE (o : BrowserOrc) (offer : Sdp) (pc : Pc) : Pc × Except String Sdp :=
  if o.failSetRemote then (pc, .error "setRemoteDescription failed")
  else
    let pc1 := setRemoteDescription pc offer
    if o.failCreateAnswer then (pc1, .error "createAnswer failed")
    else
      let answer : Sdp := ⟨.answer, o.answerContent⟩
      if o.failSetLocalAnswer then (pc1, .error "setLocalDescription failed")
      else (setLocalDescription pc1 answer, .ok answer)

/-- setFinalAnswer with its awaited browser call able to reject
(Peer.tsx lines 65-67). -/
def setFinalAnswerE (o : BrowserOrc) (answer : Sdp) (pc : Pc) : Pc × Except String Unit :=
  if o.failSetRemoteAnswer then (pc, .error "setRemoteDescription failed")
  else (setRemoteDescription pc answer, .ok ())

/-- Controller state visible to the RoomPage handlers: the remote
participant id, the local stream (an id standing for the stream
instance), the streams-sent flag, the stream-initialized ref, the list
of stream instances whose tracks were added to the peer connection
(each addTrack loop appends the stream it adds), a counter producing
fresh stream ids, and the peer connection. -/
structure Ctl where
  remoteSocketId : String
  myStream : Option Nat
  isStreamsSent : Bool
  streamInit : Bool
  senders : List Nat
  nextStream : Nat
  pc : Pc
deriving DecidableEq

/-- Engine operations a handler can invoke. -/
inductive EngineCall
  | createOfferC
  | acceptOfferC (offer : Sdp)
  | setFinalC (answer : Sdp)
deriving DecidableEq

/-- Outbound signaling messages a handler can emit. -/
inductive OutMsg
  | createOfferMsg (offer : Sdp) (target : String)
  | answerMsg (answer : Sdp) (target : String)
  | negotiationNeededMsg (offer : Sdp) (target : String)
  | negoDoneMsg (answer : Sdp) (target : String)
deriving DecidableEq

/-- Result of running one handler: the new controller state, the
engine operations invoked, the messages emitted, and the error caught
and logged by the handler's catch block, if any. Handlers always
return such a record — a caught failure never propagates. -/
structure HandlerOut where
  st : Ctl
  calls : List EngineCall
  outs : List OutMsg
  logged : Option String
deriving DecidableEq

/-- Add every track of stream s to the peer connection and mark the
streams as sent (the addTrack forEach loop plus setIsStreamsSent). -/
def addTracksOf (st : Ctl) (s : Nat) : Ctl :=
  { st with senders := st.senders ++ [s], isStreamsSent := true }

/-- Tail of handleCreateOffer after the stream checks (RoomPage.tsx
lines 165-171): invoke createOffer and emit create-offer to the
remote participant, catching any failure. -/
def finishCreateOffer (o : BrowserOrc) (st : Ctl) : HandlerOut :=
  match createOfferE o st.pc with
  | (pc1, .ok offer) =>
      ⟨{ st with pc := pc1 }, [.createOfferC],
        [.createOfferMsg offer st.remoteSocketId], none⟩
  | (pc1, .error e) => ⟨{ st with pc := pc1 }, [.createOfferC], [], some e⟩

/-- handleCreateOffer (RoomPage.tsx lines 138-181): acquire a stream
when none exists (returning early when acquisition fails), add local
tracks when not yet sent, then create and send the offer. -/
def handleCreateOffer (o : BrowserOrc) (st : Ctl) : HandlerOut :=
  match st.myStream with
  | none =>
      if o.gumOk then
        let s := st.nextStream
        let st1 := { st with myStream := some s, nextStream := st.nextStream + 1 }
        finishCreateOffer o (addTracksOf st1 s)
      else
        ⟨st, [], [], none⟩
  | some s =>
      let st2 := if st.isStreamsSent then st else addTracksOf st s
      finishCreateOffer o st2

/-- Tail of handleIncomingOffer (RoomPage.tsx lines 219-220): invoke
acceptOffer and emit the answer to the offer's sender, catching any
failure. -/
def finishIncomingOffer (o : BrowserOrc) (offer : Sdp) (frm : String) (st : Ctl) : HandlerOut :=
  match acceptOfferE o offer st.pc with
  | (pc1, .ok answer) =>
      ⟨{ st with pc := pc1 }, [.acceptOfferC offer], [.answerMsg answer frm], none⟩
  | (pc1, .error e) => ⟨{ st with pc := pc1 }, [.acceptOfferC offer], [], some e⟩

/-- handleIncomingOffer (RoomPage.tsx lines 183-226): record the
sender as the remote participant, acquire a stream when none exists
(returning early when acquisition fails), add local tracks when not
yet sent, then accept the offer and send the answer back. -/
def handleIncomingOffer (o : BrowserOrc) (offer : Sdp) (frm : String) (st : Ctl) : HandlerOut :=
  let st0 := { st with remoteSocketId := frm }
  match st0.myStream with
  | none =>
      if o.gumOk then
        let s := st0.nextStream
        let st1 := { st0 with myStream := some s, nextStream := st0.nextStream + 1 }
        let st2 := if st1.isStreamsSent then st1 else addTracksOf st1 s
        finishIncomingOffer o offer frm st2
      else
        ⟨st0, [], [], none⟩
  | some s =>
      let st2 := if st0.isStreamsSent then st0 else addTracksOf st0 s
      finishIncomingOffer o offer frm st2

/-- handleAcceptedAnswer (RoomPage.tsx lines 228-246): apply the final
answer, then double-check that the local tracks were sent, catching
any failure. -/
def handleAcceptedAnswer (o : BrowserOrc) (answer : Sdp) (st : Ctl) : HandlerOut :=
  match setFinalAnswerE o answer st.pc with
  | (pc1, .ok _) =>
      let st1 := { st with pc := pc1 }
      let st2 := (match st1.myStream with
        | some s => if st1.isStreamsSent then st1 else addTracksOf st1 s
        | none => st1)
      ⟨st2, [.setFinalC answer], [], none⟩
  | (pc1, .error e) => ⟨{ st with pc := pc1 }, [.setFinalC answer], [], some e⟩

/-- handleNegotiation (RoomPage.tsx lines 248-259), run on the
negotiationneeded event: create a renegotiation offer and emit
negotiation-needed to the remote participant, catching any failure. -/
def handleNegotiation (o : BrowserOrc) (st : Ctl) : HandlerOut :=
  match createOfferE o st.pc with
  | (pc1, .ok offer) =>
      ⟨{ st with pc := pc1 }, [.createOfferC],
        [.negotiationNeededMsg offer st.remoteSocketId], none⟩
  | (pc1, .error e) => ⟨{ st with pc := pc1 }, [.createOfferC], [], some e⟩

/-- handleNegotiationNeededIncoming (RoomPage.tsx lines 268-285):
accept the renegotiation offer and emit nego-done to its sender,
catching any failure. -/
def handleNegoIncoming (o : BrowserOrc) (offer : Sdp) (frm : String) (st : Ctl) : HandlerOut :=
  match acceptOfferE o offer st.pc with
  | (pc1, .ok answer) =>
      ⟨{ st with pc := pc1 }, [.acceptOfferC offer], [.negoDoneMsg answer frm], none⟩
  | (pc1, .error e) => ⟨{ st with pc := pc1 }, [.acceptOfferC offer], [], some e⟩

/-- handleFinalNegotiation (RoomPage.tsx lines 287-297): apply the
renegotiation answer, catching any failure. -/
def handleFinalNego (o : BrowserOrc) (answer : Sdp) (st : Ctl) : HandlerOut :=
  match setFinalAnswerE o answer st.pc with
  | (pc1, .ok _) => ⟨{ st with pc := pc1 }, [.setFinalC answer], [], none⟩
  | (pc1, .error e) => ⟨{ st with pc := pc1 }, [.setFinalC answer], [], some e⟩

/-- Inbound signaling messages the controller subscribes to
(RoomPage.tsx lines 299-304). -/
inductive InMsg
  | userJoined (userId socketId : String)
  | incomingOffer (offer : Sdp) (frm : String)
  | acceptedAnswer (answer : Sdp)
  | negotiationAccept (offer : Sdp) (frm : String)
  | negoFinal (answer : Sdp)
deriving DecidableEq

/-- The socket.on registrations (RoomPage.tsx lines 299-304): route
each inbound message to its handler. -/
def dispatch (o : BrowserOrc) (msg : InMsg) (st : Ctl) : HandlerOut :=
  match msg with
  | .userJoined _ socketId => ⟨{ st with remoteSocketId := socketId }, [], [], none⟩
  | .incomingOffer offer frm => handleIncomingOffer o offer frm st
  | .acceptedAnswer answer => handleAcceptedAnswer o answer st
  | .negotiationAccept offer frm => handleNegoIncoming o offer frm st
  | .negoFinal answer => handleFinalNego o answer st

/-- The controller state on entering the room. -/
def ctl0 : Ctl :=
  { remoteSocketId := "", myStream := none, isStreamsSent := false, streamInit := false,
    senders := [], nextStream := 0, pc := ⟨none, none, .stable⟩ }

/-- A sample inbound offer. -/
def sampleOffer : Sdp := ⟨SdpType.offer, 7⟩

/-- An oracle on which only media acquisition fails. -/
def oGumFail : BrowserOrc :=
  { gumOk := false, failCreateOffer := false, failSetLocalOffer := false,
    failSetRemote := false, failCreateAnswer := false, failSetLocalAnswer := false,
    failSetRemoteAnswer := false, offerContent := 0, answerContent := 0 }

/-- An oracle on which only the browser createAnswer call fails. -/
def oAnswerFail : BrowserOrc :=
  { gumOk := true, failCreateOffer := false, failSetLocalOffer := false,
    failSetRemote := false, failCreateAnswer := true, failSetLocalAnswer := false,
    failSetRemoteAnswer := false, offerContent := 0, answerContent := 0 }

/-- C4 (amended): provided media acquisition succeeds when a local
stream has to be acquired and the browser negotiation calls succeed,
every inbound signaling message is routed to the matching engine
operation with the specified reply: incoming-offer invokes acceptOffer
and emits the answer to the offer's sender; negotiation-accept invokes
acceptOffer and emits nego-done (delivered as nego-final) to the
sender; accepted-answer and nego-final invoke setFinalAnswer and emit
no reply. When the incoming-offer handler fails to acquire a local
stream it returns early: no engine operation and no reply. -/
theorem c4_routing (o : BrowserOrc) (st : Ctl) (offer answer : Sdp) (frm : String)
    (hg : o.gumOk = true) (h1 : o.failSetRemote = false) (h2 : o.failCreateAnswer = false)
    (h3 : o.failSetLocalAnswer = false) (h4 : o.failSetRemoteAnswer = false) :
    ((dispatch o (InMsg.incomingOffer offer frm) st).calls = [EngineCall.acceptOfferC offer] ∧
     (dispatch o (InMsg.incomingOffer offer frm) st).outs =
       [OutMsg.answerMsg ⟨SdpType.answer, o.answerContent⟩ frm]) ∧
    ((dispatch o (InMsg.negotiationAccept offer frm) st).calls =
       [EngineCall.acceptOfferC offer] ∧
     (dispatch o (InMsg.negotiationAccept offer frm) st).outs =
       [OutMsg.negoDoneMsg ⟨SdpType.answer, o.answerContent⟩ frm]) ∧
    ((dispatch o (InMsg.acceptedAnswer answer) st).calls = [EngineCall.setFinalC answer] ∧
     (dispatch o (InMsg.acceptedAnswer answer) st).outs = []) ∧
    ((dispatch o (InMsg.negoFinal answer) st).calls = [EngineCall.setFinalC answer] ∧
     (dispatch o (InMsg.negoFinal answer) st).outs = []) := by
  refine ⟨?_, ?_, ?_, ?_⟩ <;>
    cases hms : st.myStream <;>
      simp [dispatch, handleIncomingOffer, finishIncomingOffer, handleNegoIncoming,
        handleAcceptedAnswer, handleFinalNego, acceptOfferE, setFinalAnswerE, addTracksOf,
        hms, hg, h1, h2, h3, h4]

/-- C4 witness: the routing table at a concrete oracle and state. -/
theorem c4_routing_witness :
    oAnswerFail.gumOk = true ∧
    (dispatch { oAnswerFail with failCreateAnswer := false }
        (InMsg.incomingOffer sampleOffer "B1") ctl0).outs =
      [OutMsg.answerMsg ⟨SdpType.answer, 0⟩ "B1"] :=
  ⟨rfl,
    ((c4_routing { oAnswerFail with failCreateAnswer := false } ctl0 sampleOffer sampleOffer
      "B1" rfl rfl rfl rfl rfl).1.2)⟩

/-- C4 counterexample: an inbound incoming-offer arriving when no
local stream exists and media acquisition fails makes the handler
return early — acceptOffer is not invoked and no answer is emitted,
refuting the claim for every inbound message. -/
theorem c4_media_failure_drops_offer :
    (dispatch oGumFail (InMsg.incomingOffer sampleOffer "B1") ctl0).calls = [] ∧
    (dispatch oGumFail (InMsg.incomingOffer sampleOffer "B1") ctl0).outs = [] := by
  constructor <;> rfl

/-- C5 (amended): any failure in the offer/answer/description
operations invoked by the create-offer, incoming-offer,
accepted-answer, renegotiation and final-negotiation handlers is
caught and logged and does not propagate (the handler returns a normal
result with the error recorded and emits no reply for the failed
round); however the connection state is not always left in its prior
state: a failure inside acceptOffer after setRemoteDescription
succeeds leaves the remote description applied, with the signaling
state at have-remote-offer instead of the prior state. -/
theorem c5_failures_caught_logged :
    (∀ (o : BrowserOrc) (st : Ctl), (o.failCreateOffer || o.failSetLocalOffer) = true →
        (handleNegotiation o st).logged.isSome = true ∧ (handleNegotiation o st).outs = []) ∧
    (∀ (o : BrowserOrc) (st : Ctl), (st.myStream.isSome || o.gumOk) = true →
        (o.failCreateOffer || o.failSetLocalOffer) = true →
        (handleCreateOffer o st).logged.isSome = true ∧ (handleCreateOffer o st).outs = []) ∧
    (∀ (o : BrowserOrc) (offer : Sdp) (frm : String) (st : Ctl),
        (o.failSetRemote || o.failCreateAnswer || o.failSetLocalAnswer) = true →
        (handleNegoIncoming o offer frm st).logged.isSome = true ∧
        (handleNegoIncoming o offer frm st).outs = []) ∧
    (∀ (o : BrowserOrc) (offer : Sdp) (frm : String) (st : Ctl),
        (st.myStream.isSome || o.gumOk) = true →
        (o.failSetRemote || o.failCreateAnswer || o.failSetLocalAnswer) = true →
        (handleIncomingOffer o offer frm st).logged.isSome = true ∧
        (handleIncomingOffer o offer frm st).outs = []) ∧
    (∀ (o : BrowserOrc) (answer : Sdp) (st : Ctl), o.failSetRemoteAnswer = true →
        (handleFinalNego o answer st).logged.isSome = true ∧
        (handleFinalNego o answer st).outs = [] ∧
        (handleAcceptedAnswer o answer st).logged.isSome = true ∧
        (handleAcceptedAnswer o answer st).outs = []) ∧
    (∀ (o : BrowserOrc) (offer : Sdp) (frm : String) (st : Ctl),
        offer.sdpType = SdpType.offer →
        o.failSetRemote = false → o.failCreateAnswer = true →
        (handleNegoIncoming o offer frm st).logged = some "createAnswer failed" ∧
        (handleNegoIncoming o offer frm st).outs = [] ∧
        (handleNegoIncoming o offer frm st).st.pc.remoteDesc = some offer ∧
        (handleNegoIncoming o offer frm st).st.pc.sigState = SigState.haveRemoteOffer) := by
  refine ⟨?_, ?_, ?_, ?_, ?_, ?_⟩
  · intro o st hfail
    cases hc : o.failCreateOffer <;> cases hl : o.failSetLocalOffer <;>
      simp_all [handleNegotiation, createOfferE]
  · intro o st hreach hfail
    cases hms : st.myStream with
    | some s =>
        cases hc : o.failCreateOffer <;> cases hl : o.failSetLocalOffer <;>
          simp_all [handleCreateOffer, finishCreateOffer, createOfferE, addTracksOf, hms]
    | none =>
        have hg : o.gumOk = true := by
          rw [hms] at hreach
          simpa using hreach
        cases hc : o.failCreateOffer <;> cases hl : o.failSetLocalOffer <;>
          simp_all [handleCreateOffer, finishCreateOffer, createOfferE, addTracksOf, hms, hg]
  · intro o offer frm st hfail
    cases h1 : o.failSetRemote <;> cases h2 : o.failCreateAnswer <;>
      cases h3 : o.failSetLocalAnswer <;>
      simp_all [handleNegoIncoming, acceptOfferE]
  · intro o offer frm st hreach hfail
    cases hms : st.myStream with
    | some s =>
        cases h1 : o.failSetRemote <;> cases h2 : o.failCreateAnswer <;>
          cases h3 : o.failSetLocalAnswer <;>
          simp_all [handleIncomingOffer, finishIncomingOffer, acceptOfferE, addTracksOf, hms]
    | none =>
        have hg : o.gumOk = true := by
          rw [hms] at hreach
          simpa using hreach
        cases h1 : o.failSetRemote <;> cases h2 : o.failCreateAnswer <;>
          cases h3 : o.failSetLocalAnswer <;>
          simp_all [handleIncomingOffer, finishIncomingOffer, acceptOfferE, addTracksOf, hms, hg]
  · intro o answer st hfail
    simp [handleFinalNego, handleAcceptedAnswer, setFinalAnswerE, hfail]
  · intro o offer frm st hoff h1 h2
    simp [handleNegoIncoming, acceptOfferE, setRemoteDescription, hoff, h1, h2]

/-- C5 witness: a concrete createAnswer failure inside the
renegotiation handler, caught with no reply and the partial state, and
the same failure inside the incoming-offer handler on the initial room
state (no local stream, acquisition succeeding mid-handler), also
caught with no reply. -/
theorem c5_failures_caught_logged_witness :
    (oAnswerFail.failSetRemote || oAnswerFail.failCreateAnswer ||
      oAnswerFail.failSetLocalAnswer) = true ∧
    (handleNegoIncoming oAnswerFail sampleOffer "B1" ctl0).logged.isSome = true ∧
    (handleNegoIncoming oAnswerFail sampleOffer "B1" ctl0).outs = [] ∧
    (handleNegoIncoming oAnswerFail sampleOffer "B1" ctl0).st.pc.remoteDesc =
      some sampleOffer ∧
    (ctl0.myStream.isSome || oAnswerFail.gumOk) = true ∧
    (handleIncomingOffer oAnswerFail sampleOffer "B1" ctl0).logged.isSome = true ∧
    (handleIncomingOffer oAnswerFail sampleOffer "B1" ctl0).outs = [] :=
  ⟨rfl,
    (c5_failures_caught_logged.2.2.1 oAnswerFail sampleOffer "B1" ctl0 rfl).1,
    (c5_failures_caught_logged.2.2.1 oAnswerFail sampleOffer "B1" ctl0 rfl).2,
    (c5_failures_caught_logged.2.2.2.2.2 oAnswerFail sampleOffer "B1" ctl0 rfl rfl rfl).2.2.1,
    rfl,
    (c5_failures_caught_logged.2.2.2.1 oAnswerFail sampleOffer "B1" ctl0 rfl rfl).1,
    (c5_failures_caught_logged.2.2.2.1 oAnswerFail sampleOffer "B1" ctl0 rfl rfl).2⟩

/-- C5 counterexample: the renegotiation handler hit by a
createAnswer failure catches and logs it (no propagation, no reply),
yet the peer connection is not left in its prior state: starting from
the initial stable connection, the failed round leaves the remote
description applied and the signaling state at have-remote-offer. -/
theorem c5_state_changed_on_error :
    (handleNegoIncoming oAnswerFail sampleOffer "B1" ctl0).logged.isSome = true ∧
    (handleNegoIncoming oAnswerFail sampleOffer "B1" ctl0).outs = [] ∧
    ¬ ((handleNegoIncoming oAnswerFail sampleOffer "B1" ctl0).st.pc = ctl0.pc) := by
  refine ⟨rfl, rfl, ?_⟩
  simp [handleNegoIncoming, acceptOfferE, setRemoteDescription, oAnswerFail, ctl0, sampleOffer]

/-! # Track attachment across interleavings (RoomPage.tsx
initializeStream lines 101-128, handleCreateOffer lines 138-181,
handleIncomingOffer lines 183-226, handleAcceptedAnswer lines 228-246,
retryMediaAccess lines 357-376). -/

/-- initializeStream (RoomPage.tsx lines 101-128): skip when the
stream is already initialized or present; otherwise mark initialized,
acquire, and on success store the stream and add its tracks. -/
def initStream (o : BrowserOrc) (st : Ctl) : Ctl :=
  if st.streamInit || st.myStream.isSome then st
  else
    let st0 := { st with streamInit := true }
    if o.gumOk then
      addTracksOf { st0 with myStream := some st0.nextStream, nextStream := st0.nextStream + 1 }
        st0.nextStream
    else st0

/-- retryMediaAccess (RoomPage.tsx lines 357-376): reset the
initialized ref, drop the current stream, clear the streams-sent flag,
then re-acquire and on success store and add the fresh stream. -/
def retryMedia (o : BrowserOrc) (st : Ctl) : Ctl :=
  let st1 := { st with streamInit := false, myStream := none, isStreamsSent := false }
  if o.gumOk then
    addTracksOf { st1 with myStream := some st1.nextStream, nextStream := st1.nextStream + 1 }
      st1.nextStream
  else st1

/-- One controller-level operation: the mount effect, an inbound
signaling message, the start-call click, or the retry click, each with
its oracle for the external outcomes. Handlers run atomically, per the
single-threaded event model. -/
inductive COp
  | initOp (o : BrowserOrc)
  | msgOp (o : BrowserOrc) (msg : InMsg)
  | startCallOp (o : BrowserOrc)
  | retryOp (o : BrowserOrc)

/-- Apply one operation to the controller state. -/
def stepOp (st : Ctl) (op : COp) : Ctl :=
  match op with
  | .initOp o => initStream o st
  | .msgOp o m => (dispatch o m st).st
  | .startCallOp o => (handleCreateOffer o st).st
  | .retryOp o => retryMedia o st

/-- Run a sequence of operations from a starting state. -/
def runOps (st : Ctl) (ops : List COp) : Ctl := ops.foldl stepOp st

/-- Controller invariant: the sender list holds no duplicate stream
instance, every registered stream id is older than the fresh-id
counter, the current stream is registered exactly when the
streams-sent flag is set, and the flag is clear when no stream
exists. -/
def CtlInv (st : Ctl) : Prop :=
  st.senders.Nodup ∧
  (∀ s ∈ st.senders, s < st.nextStream) ∧
  (∀ s, st.myStream = some s → s < st.nextStream ∧ (st.isStreamsSent = true ↔ s ∈ st.senders)) ∧
  (st.myStream = none → st.isStreamsSent = false)

theorem ctlInv_ctl0 : CtlInv ctl0 := by
  refine ⟨List.nodup_nil, ?_, ?_, fun _ => rfl⟩ <;> simp [ctl0]

/-- Adding the tracks of a freshly acquired stream preserves the
invariant. -/
theorem ctlInv_addFresh (st : Ctl) (h : CtlInv st) :
    CtlInv (addTracksOf
      { st with myStream := some st.nextStream, nextStream := st.nextStream + 1 }
      st.nextStream) := by
  obtain ⟨h1, h2, _h3, _h4⟩ := h
  refine ⟨?_, ?_, ?_, ?_⟩
  · simp [addTracksOf, List.nodup_append, h1]
    intro hmem
    exact absurd (h2 _ hmem) (lt_irrefl _)
  · intro s hs
    simp [addTracksOf] at hs
    rcases hs with hs | hs
    · exact Nat.lt_succ_of_lt (h2 _ hs)
    · simp only [addTracksOf]
      omega
  · intro s hs
    simp only [addTracksOf] at hs ⊢
    simp at hs ⊢
    omega
  · intro hnone
    simp only [addTracksOf] at hnone
    simp at hnone

/-- Adding the tracks of the current stream when the streams-sent flag
is clear preserves the invariant. -/
theorem ctlInv_addCur (st : Ctl) (s : Nat) (h : CtlInv st) (hms : st.myStream = some s)
    (hf : st.isStreamsSent = false) : CtlInv (addTracksOf st s) := by
  obtain ⟨h1, h2, h3, _h4⟩ := h
  obtain ⟨hlt, hiff⟩ := h3 s hms
  have hnotmem : ¬ s ∈ st.senders := fun hmem => by
    have := hiff.mpr hmem
    rw [hf] at this
    exact Bool.false_ne_true this
  refine ⟨?_, ?_, ?_, ?_⟩
  · simp [addTracksOf, List.nodup_append, h1, hnotmem]
  · intro x hx
    simp only [addTracksOf] at hx ⊢
    simp at hx
    rcases hx with hx | hx
    · exact h2 _ hx
    · omega
  · intro x hx
    simp only [addTracksOf] at hx ⊢
    simp at hx ⊢
    rw [hms] at hx
    simp at hx
    subst hx
    exact ⟨hlt, Or.inr rfl⟩
  · intro hnone
    simp only [addTracksOf] at hnone
    rw [hms] at hnone
    exact absurd hnone (by simp)

/-- The invariant only concerns the sender list, the stream, the
streams-sent flag and the id counter. -/
theorem ctlInv_of_fields (st st2 : Ctl) (h : CtlInv st)
    (hsend : st2.senders = st.senders) (hms : st2.myStream = st.myStream)
    (hflag : st2.isStreamsSent = st.isStreamsSent) (hnext : st2.nextStream = st.nextStream) :
    CtlInv st2 := by
  unfold CtlInv at h ⊢
  rw [hsend, hms, hflag, hnext]
  exact h

theorem ctlInv_finishCreateOffer (o : BrowserOrc) (st : Ctl) (h : CtlInv st) :
    CtlInv (finishCreateOffer o st).st := by
  unfold finishCreateOffer
  rcases hE : createOfferE o st.pc with ⟨pc1, r⟩
  cases r <;> simp [hE] <;> exact ctlInv_of_fields st _ h rfl rfl rfl rfl

theorem ctlInv_finishIncomingOffer (o : BrowserOrc) (offer : Sdp) (frm : String) (st : Ctl)
    (h : CtlInv st) : CtlInv (finishIncomingOffer o offer frm st).st := by
  unfold finishIncomingOffer
  rcases hE : acceptOfferE o offer st.pc with ⟨pc1, r⟩
  cases r <;> simp [hE] <;> exact ctlInv_of_fields st _ h rfl rfl rfl rfl

theorem ctlInv_handleCreateOffer (o : BrowserOrc) (st : Ctl) (h : CtlInv st) :
    CtlInv (handleCreateOffer o st).st := by
  obtain ⟨rid, ms, fs, si, sd, nx, pcf⟩ := st
  unfold handleCreateOffer
  cases ms with
  | none =>
      by_cases hg : o.gumOk = true
      · simp [hg]
        exact ctlInv_finishCreateOffer o _ (ctlInv_addFresh ⟨rid, none, fs, si, sd, nx, pcf⟩ h)
      · simp [hg]
        exact h
  | some s =>
      cases fs with
      | true =>
          simp
          exact ctlInv_finishCreateOffer o _ h
      | false =>
          simp
          exact ctlInv_finishCreateOffer o _
            (ctlInv_addCur ⟨rid, some s, false, si, sd, nx, pcf⟩ s h rfl rfl)

theorem ctlInv_handleIncomingOffer (o : BrowserOrc) (offer : Sdp) (frm : String) (st : Ctl)
    (h : CtlInv st) : CtlInv (handleIncomingOffer o offer frm st).st := by
  obtain ⟨rid, ms, fs, si, sd, nx, pcf⟩ := st
  have h0 : CtlInv (⟨frm, ms, fs, si, sd, nx, pcf⟩ : Ctl) :=
    ctlInv_of_fields _ _ h rfl rfl rfl rfl
  unfold handleIncomingOffer
  cases ms with
  | none =>
      have hf0 : fs = false := h.2.2.2 rfl
      subst hf0
      by_cases hg : o.gumOk = true
      · simp [hg]
        exact ctlInv_finishIncomingOffer o offer frm _
          (ctlInv_addFresh ⟨frm, none, false, si, sd, nx, pcf⟩ h0)
      · simp [hg]
        exact h0
  | some s =>
      cases fs with
      | true =>
          simp
          exact ctlInv_finishIncomingOffer o offer frm _ h0
      | false =>
          simp
          exact ctlInv_finishIncomingOffer o offer frm _
            (ctlInv_addCur ⟨frm, some s, false, si, sd, nx, pcf⟩ s h0 rfl rfl)

theorem ctlInv_handleAcceptedAnswer (o : BrowserOrc) (answer : Sdp) (st : Ctl)
    (h : CtlInv st) : CtlInv (handleAcceptedAnswer o answer st).st := by
  obtain ⟨rid, ms, fs, si, sd, nx, pcf⟩ := st
  unfold handleAcceptedAnswer
  rcases hE : setFinalAnswerE o answer pcf with ⟨pc1, r⟩
  have h1 : CtlInv (⟨rid, ms, fs, si, sd, nx, pc1⟩ : Ctl) :=
    ctlInv_of_fields _ _ h rfl rfl rfl rfl
  cases r with
  | error e =>
      simp [hE]
      exact h1
  | ok u =>
      cases ms with
      | none =>
          simp [hE]
          exact h1
      | some s =>
          cases fs with
          | true =>
              simp [hE]
              exact h1
          | false =>
              simp [hE]
              exact ctlInv_addCur ⟨rid, some s, false, si, sd, nx, pc1⟩ s h1 rfl rfl

theorem ctlInv_handleNegoIncoming (o : BrowserOrc) (offer : Sdp) (frm : String) (st : Ctl)
    (h : CtlInv st) : CtlInv (handleNegoIncoming o offer frm st).st := by
  unfold handleNegoIncoming
  rcases hE : acceptOfferE o offer st.pc with ⟨pc1, r⟩
  cases r <;> simp [hE] <;> exact ctlInv_of_fields st _ h rfl rfl rfl rfl

theorem ctlInv_handleFinalNego (o : BrowserOrc) (answer : Sdp) (st : Ctl)
    (h : CtlInv st) : CtlInv (handleFinalNego o answer st).st := by
  unfold handleFinalNego
  rcases hE : setFinalAnswerE o answer st.pc with ⟨pc1, r⟩
  cases r <;> simp [hE] <;> exact ctlInv_of_fields st _ h rfl rfl rfl rfl

/-- Every controller operation preserves the invariant. -/
theorem ctlInv_step (st : Ctl) (op : COp) (h : CtlInv st) : CtlInv (stepOp st op) := by
  cases op with
  | initOp o =>
      obtain ⟨rid, ms, fs, si, sd, nx, pcf⟩ := st
      simp only [stepOp, initStream]
      split
      · exact h
      · have h0 : CtlInv (⟨rid, ms, fs, true, sd, nx, pcf⟩ : Ctl) :=
          ctlInv_of_fields _ _ h rfl rfl rfl rfl
        split
        · exact ctlInv_addFresh ⟨rid, ms, fs, true, sd, nx, pcf⟩ h0
        · exact h0
  | msgOp o m =>
      cases m with
      | userJoined u sid =>
          exact ctlInv_of_fields st _ h rfl rfl rfl rfl
      | incomingOffer offer frm => exact ctlInv_handleIncomingOffer o offer frm st h
      | acceptedAnswer answer => exact ctlInv_handleAcceptedAnswer o answer st h
      | negotiationAccept offer frm => exact ctlInv_handleNegoIncoming o offer frm st h
      | negoFinal answer => exact ctlInv_handleFinalNego o answer st h
  | startCallOp o => exact ctlInv_handleCreateOffer o st h
  | retryOp o =>
      obtain ⟨rid, ms, fs, si, sd, nx, pcf⟩ := st
      simp only [stepOp, retryMedia]
      have h1 : CtlInv (⟨rid, none, false, false, sd, nx, pcf⟩ : Ctl) := by
        obtain ⟨a, b, _c, _d⟩ := h
        exact ⟨a, b, by simp, by simp⟩
      split
      · exact ctlInv_addFresh ⟨rid, none, false, false, sd, nx, pcf⟩ h1
      · exact h1

/-- C8: for every sequence of controller operations (mount effect,
inbound signaling messages, start-call clicks, retry clicks) with any
oracle outcomes, starting from the initial room state, the peer
connection's sender list never registers the same stream instance
twice — local tracks are added at most once per stream instance. -/
theorem c8_no_duplicate_senders (ops : List COp) : (runOps ctl0 ops).senders.Nodup := by
  have h : ∀ (st : Ctl), CtlInv st → CtlInv (runOps st ops) := by
    induction ops with
    | nil => intro st hst; exact hst
    | cons op rest ih =>
        intro st hst
        exact ih (stepOp st op) (ctlInv_step st op hst)
  exact (h ctl0 ctlInv_ctl0).1

/-! # Release and teardown of local media (RoomPage.tsx
retryMediaAccess lines 357-376, cleanup effect lines 379-385). -/

/-- A media track: only its ended flag matters here (track.stop puts
the track in the ended state). -/
structure Track where
  ended : Bool
deriving DecidableEq

/-- track.stop. -/
def stopTrack (t : Track) : Track := { t with ended := true }

/-- LocalMediaState as held by RoomPage: the captured stream (a list
of tracks), the error message, the tracks-attached flag and the
initialized ref (streamInitialized in the source). -/
structure LocalMedia where
  myStream : Option (List Track)
  mediaError : Option String
  isStreamsSent : Bool
  streamInit : Bool
deriving DecidableEq

/-- The release phase of retryMediaAccess (lines 358-364): reset the
initialized ref, clear the error, stop every track of the current
stream and drop it, clear the streams-sent flag. Returns the cleared
state and the stopped tracks. -/
def releaseLocalMedia (st : LocalMedia) : LocalMedia × List Track :=
  ({ myStream := none, mediaError := none, isStreamsSent := false, streamInit := false },
    (match st.myStream with
     | some s => s.map stopTrack
     | none => []))

/-- retryMediaAccess (lines 357-376): the release phase followed by
re-acquisition (the getUserMedia call and the subsequent stores,
abstracted as a function of the released state). -/
def retryMediaAccess (acquire : LocalMedia → LocalMedia) (st : LocalMedia) : LocalMedia :=
  acquire (releaseLocalMedia st).1

/-- The room-teardown cleanup effect (lines 379-385): stop every track
of the current stream. -/
def cleanupStream (s : List Track) : List Track := s.map stopTrack

/-- C7: releasing local media stops every track of the current stream
(every released track is in the ended state, and so is every track
stopped by the teardown cleanup) and clears the LocalMediaState —
stream reset to null, error cleared, tracks-attached flag and
initialized ref reset — and retryMediaAccess runs its re-acquisition
on exactly this cleared state, so the clearing precedes any
re-acquisition. -/
theorem c7_release_stops_and_clears (acquire : LocalMedia → LocalMedia)
    (st : LocalMedia) (s : List Track) :
    ((releaseLocalMedia st).2.all (fun t => t.ended) = true) ∧
    (releaseLocalMedia st).1.myStream = none ∧
    (releaseLocalMedia st).1.mediaError = none ∧
    (releaseLocalMedia st).1.isStreamsSent = false ∧
    (releaseLocalMedia st).1.streamInit = false ∧
    retryMediaAccess acquire st = acquire (releaseLocalMedia st).1 ∧
    ((cleanupStream s).all (fun t => t.ended) = true) := by
  refine ⟨?_, rfl, rfl, rfl, rfl, rfl, ?_⟩
  · cases hms : st.myStream with
    | none => simp [releaseLocalMedia, hms]
    | some str => simp [releaseLocalMedia, hms, stopTrack]
  · simp [cleanupStream, stopTrack]

/-! # Remote stream surfacing (Peer.tsx handleTrackEvent lines 68-71,
RoomPage.tsx handleRemoteStream lines 322-329). An inbound track event
carries the list of streams it is associated with (ev.streams),
modelled by stream ids. -/

/-- handleTrackEvent (Peer.tsx lines 68-71): store streams[0] as the
remote stream. -/
def handleTrackEvent (streams : List Nat) (cur : Option Nat) : Option Nat :=
  streams.head?

/-- handleRemoteStream (RoomPage.tsx lines 322-329): when the event
carries at least one stream, store streams[0]; otherwise keep the
current remote stream. -/
def handleRemoteStream (streams : List Nat) (cur : Option Nat) : Option Nat :=
  if streams.isEmpty then cur else streams.head?

/-- Fold the RoomPage track handler over a sequence of inbound track
events, starting with no remote stream. -/
def foldTrackEvents (evs : List (List Nat)) : Option Nat :=
  evs.foldl (fun cur ev => handleRemoteStream ev cur) none

/-- Fold the Peer provider track handler over a sequence of inbound
track events, starting with no remote stream. -/
def foldTrackEventsPeer (evs : List (List Nat)) : Option Nat :=
  evs.foldl (fun cur ev => handleTrackEvent ev cur) none

theorem foldTrack_stays (s : Nat) :
    ∀ (evs : List (List Nat)), (∀ ev ∈ evs, ev.head? = some s) →
      (evs.foldl (fun cur ev => handleRemoteStream ev cur) (some s) = some s ∧
       evs.foldl (fun cur ev => handleTrackEvent ev cur) (some s) = some s) := by
  intro evs
  induction evs with
  | nil => intro _; exact ⟨rfl, rfl⟩
  | cons ev rest ih =>
      intro hall
      have hev : ev.head? = some s := hall ev (List.mem_cons_self ev rest)
      have hne : ev.isEmpty = false := by
        cases ev with
        | nil => simp at hev
        | cons a l => rfl
      have hrest := ih (fun e he => hall e (List.mem_cons_of_mem ev he))
      constructor
      · simpa [handleRemoteStream, hne, hev] using hrest.1
      · simpa [handleTrackEvent, hev] using hrest.2

/-- C9: for every nonempty sequence of inbound track events all
associated with the same remote stream, both track handlers surface
that stream after the first event and keep surfacing it unchanged
through every subsequent event — the first surfaced stream wins, and
later track events for the already-known stream are informational
only. -/
theorem c9_first_stream_wins (evs : List (List Nat)) (s : Nat)
    (hall : ∀ ev ∈ evs, ev.head? = some s) (hne : evs ≠ []) :
    foldTrackEvents evs = some s ∧ foldTrackEventsPeer evs = some s := by
  cases evs with
  | nil => exact absurd rfl hne
  | cons ev rest =>
      have hev : ev.head? = some s := hall ev (List.mem_cons_self ev rest)
      have hempty : ¬ (ev = []) := by
        intro hnil
        rw [hnil] at hev
        simp at hev
      have hrest := foldTrack_stays s rest (fun e he => hall e (List.mem_cons_of_mem ev he))
      constructor
      · simpa [foldTrackEvents, handleRemoteStream, hempty, hev] using hrest.1
      · simpa [foldTrackEventsPeer, handleTrackEvent, hev] using hrest.2

/-- C9 witness: two events carrying stream 5. -/
theorem c9_first_stream_wins_witness :
    (∀ ev ∈ [[5], [5, 6]], ev.head? = some 5) ∧
    foldTrackEvents [[5], [5, 6]] = some 5 ∧ foldTrackEventsPeer [[5], [5, 6]] = some 5 :=
  ⟨by decide,
    (c9_first_stream_wins [[5], [5, 6]] 5 (by decide) (by decide)).1,
    (c9_first_stream_wins [[5], [5, 6]] 5 (by decide) (by decide)).2⟩

/-! # Context hooks (Peer.tsx usePeer lines 17-23, Socket.tsx
useSocket lines 7-13). The context value is modelled opaquely; the
hook either throws (error) or returns the non-null value. -/

/-- The PeerType context value, opaque to the hook. -/
structure PeerCtx where
  ctxId : Nat
deriving DecidableEq

/-- The Socket context value, opaque to the hook. -/
structure SocketCtx where
  ctxId : Nat
deriving DecidableEq

/-- usePeer (Peer.tsx lines 17-23): throw when no provider supplied a
context value, otherwise return it. -/
def usePeer (ctx : Option PeerCtx) : Except String PeerCtx :=
  match ctx with
  | none => .error "User peer must be in a provider"
  | some p => .ok p

/-- useSocket (Socket.tsx lines 7-13): throw when no provider supplied
a context value, otherwise return it. -/
def useSocket (ctx : Option SocketCtx) : Except String SocketCtx :=
  match ctx with
  | none => .error "Socket Is intialize"
  | some s => .ok s

/-- C10: the accessor hooks fail closed — with no enclosing provider
value each hook throws, and with a provider value each hook returns
exactly that non-null instance. -/
theorem c10_hooks_fail_closed :
    usePeer none = Except.error "User peer must be in a provider" ∧
    (∀ p, usePeer (some p) = Except.ok p) ∧
    useSocket none = Except.error "Socket Is intialize" ∧
    (∀ s, useSocket (some s) = Except.ok s) :=
  ⟨rfl, fun _ => rfl, rfl, fun _ => rfl⟩
